import Mathlib

/-!
go-pivnet: the products service and the release-upgrade-paths service.

A shallow embedding of `products.go` (package `pivnet`).  The `Client`
interface of the package is kept abstract: a client is a state type together
with a `MakeRequest` function, which may write into the value its `data`
argument points at and may fail.  Every call of `MakeRequest` is recorded in a
trace, so that statements about the requests a service issues can be made.
-/

namespace Pivnet

/-- A Go `error` value that is not nil.  A nil `error` is `none : Option GoError`. -/
structure GoError where
  msg : String
  deriving DecidableEq

/-- The record `Product` of `products.go`. -/
structure Product where
  ID : Int
  Slug : String
  Name : String
  deriving DecidableEq

/-- The Go zero value `Product{}`. -/
def Product.zero : Product := { ID := 0, Slug := "", Name := "" }

/-- The record `ProductsResponse` of `products.go`.  A nil slice and an empty
slice are both the empty list. -/
structure ProductsResponse where
  Products : List Product
  deriving DecidableEq

/-- The Go zero value of `ProductsResponse` (what `var response ProductsResponse` declares). -/
def ProductsResponse.zero : ProductsResponse := { Products := [] }

/-- JSON values, as far as the package exchanges them (objects, arrays,
strings, integers and null). -/
inductive JSON where
  | null : JSON
  | num : Int → JSON
  | str : String → JSON
  | arr : List JSON → JSON
  | obj : List (String × JSON) → JSON

/-- The release named by an upgrade path (`UpgradePathRelease`). -/
structure UpgradePathRelease where
  ID : Int
  Version : String
  deriving DecidableEq

/-- One upgrade path of a release (`ReleaseUpgradePath`). -/
structure ReleaseUpgradePath where
  Release : UpgradePathRelease
  deriving DecidableEq

/-- The envelope `ReleaseUpgradePathsResponse`. -/
structure ReleaseUpgradePathsResponse where
  ReleaseUpgradePaths : List ReleaseUpgradePath
  deriving DecidableEq

/-- The dynamic type of the value behind the `data interface{}` argument of
`MakeRequest`: a pointer to one of the response records, or nil. -/
inductive DataKind where
  | productsResponse
  | product
  | releaseUpgradePathsResponse
  | nil
  deriving DecidableEq

/-- The type of the value `data` points at. -/
@[reducible] def DataKind.type : DataKind → Type
  | .productsResponse => ProductsResponse
  | .product => Product
  | .releaseUpgradePathsResponse => ReleaseUpgradePathsResponse
  | .nil => Unit

/-- HTTP status codes used by the package (`net/http`). -/
def StatusOK : Nat := 200

/-- The constant `http.StatusNoContent`. -/
def StatusNoContent : Nat := 204

/-- The arguments of one `MakeRequest` call, apart from `data`:
request type, endpoint, expected status code and body (`none` is a nil reader). -/
structure Request where
  method : String
  url : String
  expectedStatus : Nat
  body : Option JSON

/-- What a `MakeRequest` call leaves behind: the client's next state, the value
now stored behind `data`, and the returned `error`.  The `*http.Response` and
the raw bytes that `MakeRequest` also returns are discarded by every caller in
`products.go` (`_, _, err := ...`) and are not modelled. -/
structure MakeRequestResult (σ : Type) (k : DataKind) where
  state : σ
  data : k.type
  err : Option GoError

/-- The interface `Client`, reduced to the one method the services use.  The
client receives the current content of `data` and returns its new content. -/
structure Client (σ : Type) where
  MakeRequest : (k : DataKind) → String → String → Nat → Option JSON → k.type → σ →
    MakeRequestResult σ k

/-- The running program: the client's state and the `MakeRequest` calls issued so far. -/
structure World (σ : Type) where
  state : σ
  calls : List Request

/-- One method call `client.MakeRequest(method, url, expectedStatus, body, &data)`:
the call is appended to the trace and the client's answer is returned. -/
def Client.invoke {σ : Type} (c : Client σ) (k : DataKind) (method url : String)
    (expectedStatus : Nat) (body : Option JSON) (data : k.type) (w : World σ) :
    World σ × k.type × Option GoError :=
  let r := c.MakeRequest k method url expectedStatus body data w.state
  ({ state := r.state,
     calls := w.calls ++ [{ method := method, url := url,
                            expectedStatus := expectedStatus, body := body }] },
   r.data, r.err)

/-- The struct `ProductsService` (the logger field plays no part in `List` and `Get`). -/
structure ProductsService (σ : Type) where
  client : Client σ

/-- The URL `List` requests. -/
def ProductsService.listURL : String := "/products"

/-- The URL `Get` requests: `fmt.Sprintf("/products/%s", slug)`. -/
def ProductsService.getURL (slug : String) : String := "/products/" ++ slug

/-- The method `ProductsService.List`. -/
def ProductsService.List {σ : Type} (p : ProductsService σ) (w : World σ) :
    World σ × List Product × Option GoError :=
  let url := ProductsService.listURL
  let response := ProductsResponse.zero
  match p.client.invoke .productsResponse "GET" url StatusOK none response w with
  | (w1, response, err) =>
    match err with
    | some e => (w1, [], some e)
    | none => (w1, response.Products, none)

/-- The method `ProductsService.Get`. -/
def ProductsService.Get {σ : Type} (p : ProductsService σ) (slug : String) (w : World σ) :
    World σ × Product × Option GoError :=
  let url := ProductsService.getURL slug
  let response := Product.zero
  match p.client.invoke .product "GET" url StatusOK none response w with
  | (w1, response, err) =>
    match err with
    | some e => (w1, Product.zero, some e)
    | none => (w1, response, none)

/-- A test double for `Client`: it stores the given values behind `data`
(whatever the request was), counts the calls in its state and returns `err`. -/
def fakeClient (products : ProductsResponse) (product : Product)
    (paths : ReleaseUpgradePathsResponse) (err : Option GoError) : Client Nat where
  MakeRequest := fun k _ _ _ _ d s =>
    match k, d with
    | .productsResponse, _ => { state := s + 1, data := products, err := err }
    | .product, _ => { state := s + 1, data := product, err := err }
    | .releaseUpgradePathsResponse, _ => { state := s + 1, data := paths, err := err }
    | .nil, d => { state := s + 1, data := d, err := err }

/-- A second test double for `Client`: its state is the list of the calls it
has received, in order; it leaves `data` as it is and returns `err`. -/
def recordingClient (err : Option GoError) : Client (List Request) where
  MakeRequest := fun _ method url expectedStatus body d received =>
    { state := received ++ [{ method := method, url := url,
                              expectedStatus := expectedStatus, body := body }],
      data := d, err := err }

/-- The world before any call: client state `s`, empty trace. -/
def World.init {σ : Type} (s : σ) : World σ := { state := s, calls := [] }

/-! The release-upgrade-paths service and the HTTP client.  Their source files
(`release_upgrade_paths.go`, `client.go`) are not part of the sources at hand;
only the test `release_upgrade_paths_test.go` is.  The definitions below are
modelled from the specification and that test, on the pattern of `products.go`. -/

/-- An HTTP request as the server receives it: method, path, the API token and
user agent sent in the headers, and the JSON body (`none` when there is none). -/
structure HTTPRequest where
  method : String
  path : String
  token : String
  userAgent : String
  body : Option JSON

/-- An HTTP response: status code and JSON body. -/
structure HTTPResponse where
  StatusCode : Nat
  Body : JSON

/-- The record `ClientConfig` the test builds a client from. -/
structure ClientConfig where
  Host : String
  Token : String
  UserAgent : String

/-- The value of the field `key` of a JSON object, `none` for a missing field
or a value that is no object. -/
def JSON.field (key : String) : JSON → Option JSON
  | .obj kvs => kvs.lookup key
  | _ => none

/-- Modelled from the spec: decoding an integer field ("fields present in the
JSON response populate the corresponding record fields"); a missing or null
field leaves the current value, a value of another type is a decoding failure. -/
def decodeInt (j : Option JSON) (cur : Int) : Option Int :=
  match j with
  | none => some cur
  | some .null => some cur
  | some (.num n) => some n
  | some _ => none

/-- Modelled from the spec: decoding a string field, as `decodeInt`. -/
def decodeString (j : Option JSON) (cur : String) : Option String :=
  match j with
  | none => some cur
  | some .null => some cur
  | some (.str s) => some s
  | some _ => none

/-- Modelled from the spec: decoding the elements of a JSON array in order,
each by `elem`; the first failure fails the whole array. -/
def decodeElems {α : Type} (elem : JSON → Option α) : List JSON → Option (List α)
  | [] => some []
  | x :: xs =>
    match elem x with
    | none => none
    | some a =>
      match decodeElems elem xs with
      | none => none
      | some as => some (a :: as)

/-- Modelled from the spec: decoding an array field, each element decoded into
a fresh zero value by `elem`; a missing field leaves the current list, null empties it. -/
def decodeList {α : Type} (elem : JSON → Option α) (j : Option JSON) (cur : List α) :
    Option (List α) :=
  match j with
  | none => some cur
  | some .null => some []
  | some (.arr xs) => decodeElems elem xs
  | some _ => none

/-- Modelled from the spec: decoding a JSON object into a `Product`, with the
keys of the struct tags in `products.go`. -/
def decodeProduct (cur : Product) (j : JSON) : Option Product :=
  match j with
  | .obj _ => do
    let id ← decodeInt (j.field "id") cur.ID
    let slug ← decodeString (j.field "slug") cur.Slug
    let name ← decodeString (j.field "name") cur.Name
    pure { ID := id, Slug := slug, Name := name }
  | _ => none

/-- Modelled from the spec: decoding a JSON object into a `ProductsResponse`. -/
def decodeProductsResponse (cur : ProductsResponse) (j : JSON) : Option ProductsResponse :=
  match j with
  | .obj _ => do
    let ps ← decodeList (decodeProduct Product.zero) (j.field "products") cur.Products
    pure { Products := ps }
  | _ => none

/-- The Go zero value of `UpgradePathRelease`. -/
def UpgradePathRelease.zero : UpgradePathRelease := { ID := 0, Version := "" }

/-- Modelled from the spec: decoding a JSON object into an `UpgradePathRelease`
(`release_upgrade_paths.go` is missing; the keys follow the naming of `products.go`). -/
def decodeUpgradePathRelease (cur : UpgradePathRelease) (j : JSON) : Option UpgradePathRelease :=
  match j with
  | .obj _ => do
    let id ← decodeInt (j.field "id") cur.ID
    let version ← decodeString (j.field "version") cur.Version
    pure { ID := id, Version := version }
  | _ => none

/-- Modelled from the spec: decoding a JSON object into a `ReleaseUpgradePath`
(`release_upgrade_paths.go` is missing). -/
def decodeReleaseUpgradePath (cur : ReleaseUpgradePath) (j : JSON) : Option ReleaseUpgradePath :=
  match j with
  | .obj _ =>
    match j.field "release" with
    | none => some cur
    | some .null => some cur
    | some r => do
      let rel ← decodeUpgradePathRelease cur.Release r
      pure { Release := rel }
  | _ => none

/-- The Go zero value of `ReleaseUpgradePathsResponse`. -/
def ReleaseUpgradePathsResponse.zero : ReleaseUpgradePathsResponse :=
  { ReleaseUpgradePaths := [] }

/-- Modelled from the spec: decoding a JSON object into a
`ReleaseUpgradePathsResponse` (`release_upgrade_paths.go` is missing). -/
def decodeReleaseUpgradePathsResponse (cur : ReleaseUpgradePathsResponse) (j : JSON) :
    Option ReleaseUpgradePathsResponse :=
  match j with
  | .obj _ => do
    let ps ← decodeList (decodeReleaseUpgradePath { Release := UpgradePathRelease.zero })
      (j.field "upgrade_paths") cur.ReleaseUpgradePaths
    pure { ReleaseUpgradePaths := ps }
  | _ => none

/-- Modelled from the spec: "unmarshal JSON" into the value behind `data`,
by the dynamic type of `data`; a nil `data` decodes nothing (`client.go` is missing). -/
def decodeData (k : DataKind) (j : JSON) (cur : k.type) : Option k.type :=
  match k, cur with
  | .productsResponse, cur => decodeProductsResponse cur j
  | .product, cur => decodeProduct cur j
  | .releaseUpgradePathsResponse, cur => decodeReleaseUpgradePathsResponse cur j
  | .nil, cur => some cur

/-- Modelled from the spec: the string in the "message" field of a JSON body
(`client.go` is missing), `none` when the body has no such field or the field
holds no string. -/
def JSON.messageField (body : JSON) : Option String :=
  match body.field "message" with
  | some (.str m) => some m
  | _ => none

/-- Modelled from the spec: "extract an error message" from the body of a
response with an unexpected status: the string in its "message" field, the empty
string when there is none (`client.go` is missing). -/
def errorMessage (body : JSON) : String :=
  body.messageField.getD ""

/-- Modelled from the spec: the client `NewClient` builds and its `MakeRequest`
(`client.go` is missing): "build a URL, set headers, optionally marshal a JSON
body, issue the call, check status code, unmarshal JSON or extract an error
message".  The server is a function from requests to responses; the client's
state is the list of requests the server has received. -/
def NewClient (apiPrefix : String) (config : ClientConfig)
    (server : HTTPRequest → HTTPResponse) : Client (List HTTPRequest) where
  MakeRequest := fun k requestType endpoint expectedStatusCode body data received =>
    let req : HTTPRequest :=
      { method := requestType, path := apiPrefix ++ endpoint,
        token := config.Token, userAgent := config.UserAgent, body := body }
    let resp := server req
    if resp.StatusCode ≠ expectedStatusCode then
      { state := received ++ [req], data := data, err := some { msg := errorMessage resp.Body } }
    else
      match decodeData k resp.Body data with
      | some d => { state := received ++ [req], data := d, err := none }
      | none => { state := received ++ [req], data := data,
                  err := some { msg := "invalid JSON response" } }

/-- The struct `ReleaseUpgradePathsService`. -/
structure ReleaseUpgradePathsService (σ : Type) where
  client : Client σ

/-- The URL template of the test: `"/products/%s/releases/%d/" + last`. -/
def ReleaseUpgradePathsService.url (productSlug : String) (releaseID : Int) (last : String) :
    String :=
  "/products/" ++ productSlug ++ "/releases/" ++ toString releaseID ++ "/" ++ last

/-- The request body of `Add` and `Remove`: the upgrade-path object around the
previous release's id. -/
def addRemoveUpgradePathBody (previousReleaseID : Int) : JSON :=
  .obj [("upgrade_path", .obj [("release_id", .num previousReleaseID)])]

/-- Modelled from the spec: `ReleaseUpgradePathsService.Get`
(`release_upgrade_paths.go` is missing), the request/response pattern of
`ProductsService.List` against the upgrade-paths URL. -/
def ReleaseUpgradePathsService.Get {σ : Type} (r : ReleaseUpgradePathsService σ)
    (productSlug : String) (releaseID : Int) (w : World σ) :
    World σ × List ReleaseUpgradePath × Option GoError :=
  let url := ReleaseUpgradePathsService.url productSlug releaseID "upgrade_paths"
  let response := ReleaseUpgradePathsResponse.zero
  match r.client.invoke .releaseUpgradePathsResponse "GET" url StatusOK none response w with
  | (w1, response, err) =>
    match err with
    | some e => (w1, [], some e)
    | none => (w1, response.ReleaseUpgradePaths, none)

/-- Modelled from the spec: `ReleaseUpgradePathsService.Add`
(`release_upgrade_paths.go` is missing): a PATCH with the upgrade-path body,
expecting 204 No Content and decoding nothing. -/
def ReleaseUpgradePathsService.Add {σ : Type} (r : ReleaseUpgradePathsService σ)
    (productSlug : String) (releaseID previousReleaseID : Int) (w : World σ) :
    World σ × Option GoError :=
  let url := ReleaseUpgradePathsService.url productSlug releaseID "add_upgrade_path"
  let body := addRemoveUpgradePathBody previousReleaseID
  match r.client.invoke .nil "PATCH" url StatusNoContent (some body) () w with
  | (w1, _, err) => (w1, err)

/-- Modelled from the spec: `ReleaseUpgradePathsService.Remove`
(`release_upgrade_paths.go` is missing): as `Add`, against `remove_upgrade_path`. -/
def ReleaseUpgradePathsService.Remove {σ : Type} (r : ReleaseUpgradePathsService σ)
    (productSlug : String) (releaseID previousReleaseID : Int) (w : World σ) :
    World σ × Option GoError :=
  let url := ReleaseUpgradePathsService.url productSlug releaseID "remove_upgrade_path"
  let body := addRemoveUpgradePathBody previousReleaseID
  match r.client.invoke .nil "PATCH" url StatusNoContent (some body) () w with
  | (w1, _, err) => (w1, err)

/-- Modelled from the spec: the JSON encoding of an `UpgradePathRelease` the
test server sends (`RespondWithJSONEncoded`); zero-valued fields are omitted,
as the struct tags of `products.go` have it. -/
def encodeUpgradePathRelease (r : UpgradePathRelease) : JSON :=
  .obj ((if r.ID = 0 then [] else [("id", .num r.ID)]) ++
        (if r.Version = "" then [] else [("version", .str r.Version)]))

/-- Modelled from the spec: the JSON encoding of a `ReleaseUpgradePath`. -/
def encodeReleaseUpgradePath (u : ReleaseUpgradePath) : JSON :=
  .obj [("release", encodeUpgradePathRelease u.Release)]

/-- Modelled from the spec: the JSON encoding of a `ReleaseUpgradePathsResponse`;
an empty list is omitted. -/
def encodeReleaseUpgradePathsResponse (r : ReleaseUpgradePathsResponse) : JSON :=
  .obj (if r.ReleaseUpgradePaths = [] then []
        else [("upgrade_paths", .arr (r.ReleaseUpgradePaths.map encodeReleaseUpgradePath))])

/-- The text of `err` contains `m` (Go's `strings.Contains`). -/
def GoError.Contains (e : GoError) (m : String) : Prop :=
  m.data <:+: e.msg.data

/-- The client configuration of the test (`BeforeEach`); the host is the
address of the test server. -/
def testConfig : ClientConfig :=
  { Host := "http://127.0.0.1", Token := "my-auth-token",
    UserAgent := "pivnet-resource/0.1.0 (some-url)" }

/-- The test server of the failure cases: every request is answered with
418 (`http.StatusTeapot`) and a body whose "message" field is "foo message". -/
def teapotServer : HTTPRequest → HTTPResponse :=
  fun _ => { StatusCode := 418, Body := .obj [("message", .str "foo message")] }

/-- The response value of the test "returns the release upgrade paths". -/
def testUpgradePaths : ReleaseUpgradePathsResponse :=
  { ReleaseUpgradePaths :=
      [{ Release := { ID := 9876, Version := "release 9876" } },
       { Release := { ID := 8765, Version := "release 8765" } }] }

/-- The test server of "returns the release upgrade paths": 200 and the encoded response. -/
def upgradePathsServer : HTTPRequest → HTTPResponse :=
  fun _ => { StatusCode := 200, Body := encodeReleaseUpgradePathsResponse testUpgradePaths }

/-- The test server of the `Add` and `Remove` successes: 204 and the encoding of nil. -/
def noContentServer : HTTPRequest → HTTPResponse :=
  fun _ => { StatusCode := 204, Body := .null }

instance (e : GoError) (m : String) : Decidable (e.Contains m) := by
  unfold GoError.Contains; infer_instance

/-! Theorems about `products.go`. -/

/-- C1: when the `MakeRequest` call of `List` returns a non-nil error `e`,
`List` returns an empty product slice (length 0) and exactly `e`, whatever the
client stored in the response value (`d`) before failing. -/
theorem List_returns_empty_and_the_error {σ : Type} (p : ProductsService σ) (w : World σ)
    (s1 : σ) (d : ProductsResponse) (e : GoError)
    (h : p.client.MakeRequest .productsResponse "GET" "/products" 200 none
          ProductsResponse.zero w.state = { state := s1, data := d, err := some e }) :
    (p.List w).2.1 = [] ∧ (p.List w).2.1.length = 0 ∧ (p.List w).2.2 = some e := by
  simp [ProductsService.List, Client.invoke, ProductsService.listURL, StatusOK, h]

/-- A failing client that first stored one product in the response: `List`
still returns the empty slice and the client's error. -/
theorem List_returns_empty_and_the_error_witness :
    ((ProductsService.mk (fakeClient { Products := [{ ID := 7, Slug := "s", Name := "n" }] }
        Product.zero ReleaseUpgradePathsResponse.zero (some { msg := "boom" }))).List
        (World.init 0)).2.1 = [] ∧
    ((ProductsService.mk (fakeClient { Products := [{ ID := 7, Slug := "s", Name := "n" }] }
        Product.zero ReleaseUpgradePathsResponse.zero (some { msg := "boom" }))).List
        (World.init 0)).2.1.length = 0 ∧
    ((ProductsService.mk (fakeClient { Products := [{ ID := 7, Slug := "s", Name := "n" }] }
        Product.zero ReleaseUpgradePathsResponse.zero (some { msg := "boom" }))).List
        (World.init 0)).2.2 = some { msg := "boom" } :=
  List_returns_empty_and_the_error _ (World.init 0) 1
    { Products := [{ ID := 7, Slug := "s", Name := "n" }] } { msg := "boom" } rfl

/-- C2: when the `MakeRequest` call of `Get` returns a non-nil error `e`, `Get`
returns the zero `Product` (ID 0, Slug "", Name "") and exactly `e`, whatever
the client stored in the response value (`d`) before failing. -/
theorem Get_returns_zero_and_the_error {σ : Type} (p : ProductsService σ) (slug : String)
    (w : World σ) (s1 : σ) (d : Product) (e : GoError)
    (h : p.client.MakeRequest .product "GET" ("/products/" ++ slug) 200 none
          Product.zero w.state = { state := s1, data := d, err := some e }) :
    (p.Get slug w).2.1 = { ID := 0, Slug := "", Name := "" } ∧ (p.Get slug w).2.2 = some e := by
  simp [ProductsService.Get, Client.invoke, ProductsService.getURL, StatusOK, h]
  rfl

/-- A failing client that first filled in the product: `Get` returns the zero product. -/
theorem Get_returns_zero_and_the_error_witness :
    ((ProductsService.mk (fakeClient ProductsResponse.zero { ID := 7, Slug := "s", Name := "n" }
        ReleaseUpgradePathsResponse.zero (some { msg := "boom" }))).Get "s"
        (World.init 0)).2.1 = { ID := 0, Slug := "", Name := "" } ∧
    ((ProductsService.mk (fakeClient ProductsResponse.zero { ID := 7, Slug := "s", Name := "n" }
        ReleaseUpgradePathsResponse.zero (some { msg := "boom" }))).Get "s"
        (World.init 0)).2.2 = some { msg := "boom" } :=
  Get_returns_zero_and_the_error _ "s" (World.init 0) 1
    { ID := 7, Slug := "s", Name := "n" } { msg := "boom" } rfl

/-- C3: when the `MakeRequest` call of `List` returns a nil error after storing
the `ProductsResponse` `r` in the response value, `List` returns exactly
`r.Products` and a nil error. -/
theorem List_returns_the_decoded_products {σ : Type} (p : ProductsService σ) (w : World σ)
    (s1 : σ) (r : ProductsResponse)
    (h : p.client.MakeRequest .productsResponse "GET" "/products" 200 none
          ProductsResponse.zero w.state = { state := s1, data := r, err := none }) :
    (p.List w).2.1 = r.Products ∧ (p.List w).2.2 = none := by
  simp [ProductsService.List, Client.invoke, ProductsService.listURL, StatusOK, h]

/-- A client that stores two products: `List` returns both, in order. -/
theorem List_returns_the_decoded_products_witness :
    ((ProductsService.mk (fakeClient
        { Products := [{ ID := 7, Slug := "s", Name := "n" }, { ID := 3, Slug := "t", Name := "m" }] }
        Product.zero ReleaseUpgradePathsResponse.zero none)).List (World.init 0)).2.1
      = [{ ID := 7, Slug := "s", Name := "n" }, { ID := 3, Slug := "t", Name := "m" }] ∧
    ((ProductsService.mk (fakeClient
        { Products := [{ ID := 7, Slug := "s", Name := "n" }, { ID := 3, Slug := "t", Name := "m" }] }
        Product.zero ReleaseUpgradePathsResponse.zero none)).List (World.init 0)).2.2 = none :=
  List_returns_the_decoded_products _ (World.init 0) 1
    { Products := [{ ID := 7, Slug := "s", Name := "n" }, { ID := 3, Slug := "t", Name := "m" }] } rfl

/-- C4: when the `MakeRequest` call of `Get` returns a nil error after storing
the `Product` `q` in the response value, `Get` returns exactly `q` (ID, Slug
and Name unchanged) and a nil error; the returned Slug is the response's, not
the `slug` argument. -/
theorem Get_returns_the_decoded_product {σ : Type} (p : ProductsService σ) (slug : String)
    (w : World σ) (s1 : σ) (q : Product)
    (h : p.client.MakeRequest .product "GET" ("/products/" ++ slug) 200 none
          Product.zero w.state = { state := s1, data := q, err := none }) :
    (p.Get slug w).2.1 = q ∧ (p.Get slug w).2.1.ID = q.ID ∧ (p.Get slug w).2.1.Slug = q.Slug ∧
      (p.Get slug w).2.1.Name = q.Name ∧ (p.Get slug w).2.2 = none := by
  simp [ProductsService.Get, Client.invoke, ProductsService.getURL, StatusOK, h]

/-- A client answering the slug "asked" with a product whose slug is
"answered": `Get` returns the answered product. -/
theorem Get_returns_the_decoded_product_witness :
    ((ProductsService.mk (fakeClient ProductsResponse.zero
        { ID := 7, Slug := "answered", Name := "n" }
        ReleaseUpgradePathsResponse.zero none)).Get "asked" (World.init 0)).2.1.Slug
      = "answered" :=
  (Get_returns_the_decoded_product _ "asked" (World.init 0) 1
    { ID := 7, Slug := "answered", Name := "n" } rfl).2.2.1

/-- C5: for every slug, client and starting world, `Get` issues exactly one
`MakeRequest` call: the state it leaves the client in and the error it returns
are those of one application of the client to method "GET", URL "/products/"
followed by the slug verbatim, expected status 200, no body and the zero
`Product`, in the starting state; the trace grows by that one entry. -/
theorem Get_issues_one_request {σ : Type} (p : ProductsService σ) (slug : String) (w : World σ) :
    (p.Get slug w).1.state =
      (p.client.MakeRequest .product "GET" ("/products/" ++ slug) 200 none
        { ID := 0, Slug := "", Name := "" } w.state).state ∧
    (p.Get slug w).2.2 =
      (p.client.MakeRequest .product "GET" ("/products/" ++ slug) 200 none
        { ID := 0, Slug := "", Name := "" } w.state).err ∧
    (p.Get slug w).1.calls =
      w.calls ++ [{ method := "GET", url := "/products/" ++ slug, expectedStatus := 200,
                    body := none }] := by
  simp only [ProductsService.Get, Client.invoke, ProductsService.getURL, StatusOK, Product.zero]
  split <;> rename_i h <;> simp [h]

/-- A client that records the calls it receives, failing or not, has received
from `Get` exactly the one GET of "/products/some-slug". -/
theorem Get_issues_one_request_witness :
    ((ProductsService.mk (recordingClient none)).Get "some-slug" (World.init [])).1.state =
      [{ method := "GET", url := "/products/some-slug", expectedStatus := 200, body := none }] ∧
    ((ProductsService.mk (recordingClient (some { msg := "boom" }))).Get "some-slug"
        (World.init [])).1.state =
      [{ method := "GET", url := "/products/some-slug", expectedStatus := 200, body := none }] :=
  ⟨(Get_issues_one_request (ProductsService.mk (recordingClient none)) "some-slug"
      (World.init [])).1.trans rfl,
   (Get_issues_one_request (ProductsService.mk (recordingClient (some { msg := "boom" })))
      "some-slug" (World.init [])).1.trans rfl⟩

/-- C6: for every client and starting world, `List` issues exactly one
`MakeRequest` call, whether or not the call fails: the state it leaves the
client in and the error it returns are those of one application of the client
to method "GET", URL "/products", expected status 200, no body and the zero
`ProductsResponse`, in the starting state; the trace grows by that one entry. -/
theorem List_issues_one_request {σ : Type} (p : ProductsService σ) (w : World σ) :
    (p.List w).1.state =
      (p.client.MakeRequest .productsResponse "GET" "/products" 200 none
        { Products := [] } w.state).state ∧
    (p.List w).2.2 =
      (p.client.MakeRequest .productsResponse "GET" "/products" 200 none
        { Products := [] } w.state).err ∧
    (p.List w).1.calls =
      w.calls ++ [{ method := "GET", url := "/products", expectedStatus := 200,
                    body := none }] := by
  simp only [ProductsService.List, Client.invoke, ProductsService.listURL, StatusOK,
    ProductsResponse.zero]
  split <;> rename_i h <;> simp [h]

/-- A client that records the calls it receives, failing or not, has received
from `List` exactly the one GET of "/products". -/
theorem List_issues_one_request_witness :
    ((ProductsService.mk (recordingClient none)).List (World.init [])).1.state =
      [{ method := "GET", url := "/products", expectedStatus := 200, body := none }] ∧
    ((ProductsService.mk (recordingClient (some { msg := "boom" }))).List
        (World.init [])).1.state =
      [{ method := "GET", url := "/products", expectedStatus := 200, body := none }] :=
  ⟨(List_issues_one_request (ProductsService.mk (recordingClient none))
      (World.init [])).1.trans rfl,
   (List_issues_one_request (ProductsService.mk (recordingClient (some { msg := "boom" })))
      (World.init [])).1.trans rfl⟩

/-- C10: the URL `Get` requests is injective in the slug, and for every slug
(the empty one included) it differs from the URL `List` requests. -/
theorem getURL_injective_and_not_listURL :
    (∀ s1 s2 : String, ProductsService.getURL s1 = ProductsService.getURL s2 → s1 = s2) ∧
    (∀ s : String, ProductsService.getURL s ≠ ProductsService.listURL) ∧
    ProductsService.getURL "" = "/products/" := by
  refine ⟨?_, ?_, by decide⟩
  · intro s1 s2 h
    have h1 := congrArg String.data h
    simp only [ProductsService.getURL, String.data_append] at h1
    exact String.ext (List.append_cancel_left h1)
  · intro s h
    have h1 := congrArg String.length h
    simp only [ProductsService.getURL, ProductsService.listURL, String.length_append] at h1
    have h2 : "/products/".length = 10 := by decide
    have h3 : "/products".length = 9 := by decide
    omega

/-- The URLs of two slugs, one a prefix of the other, differ, and the URL of the
empty slug is not the list URL. -/
theorem getURL_injective_and_not_listURL_witness :
    ProductsService.getURL "a" ≠ ProductsService.getURL "a/" ∧
    ProductsService.getURL "" ≠ ProductsService.listURL :=
  ⟨fun h => absurd (getURL_injective_and_not_listURL.1 "a" "a/" h) (by decide),
   getURL_injective_and_not_listURL.2.1 ""⟩

/-! Theorems about the release-upgrade-paths service over the modelled client. -/

/-- Decoding the encoding of a release gives the release back. -/
theorem decode_encode_UpgradePathRelease (r : UpgradePathRelease) :
    decodeUpgradePathRelease UpgradePathRelease.zero (encodeUpgradePathRelease r) = some r := by
  obtain ⟨id, version⟩ := r
  by_cases h1 : id = 0 <;> by_cases h2 : version = "" <;>
    simp [decodeUpgradePathRelease, encodeUpgradePathRelease, JSON.field, decodeInt,
      decodeString, UpgradePathRelease.zero, h1, h2, List.lookup]

/-- Decoding the encoding of an upgrade path gives the upgrade path back. -/
theorem decode_encode_ReleaseUpgradePath (u : ReleaseUpgradePath) :
    decodeReleaseUpgradePath { Release := UpgradePathRelease.zero }
      (encodeReleaseUpgradePath u) = some u := by
  obtain ⟨r⟩ := u
  have h := decode_encode_UpgradePathRelease r
  simp only [decodeReleaseUpgradePath, encodeReleaseUpgradePath, JSON.field, List.lookup]
  simp [encodeUpgradePathRelease] at h ⊢
  simp [h]

/-- Decoding the encodings of a list of upgrade paths gives the list back, in order. -/
theorem decodeElems_map_encode (us : List ReleaseUpgradePath) :
    decodeElems (decodeReleaseUpgradePath { Release := UpgradePathRelease.zero })
      (us.map encodeReleaseUpgradePath) = some us := by
  induction us with
  | nil => rfl
  | cons u us ih => simp [decodeElems, decode_encode_ReleaseUpgradePath, ih]

/-- Decoding the encoding of an upgrade-paths envelope gives the envelope back. -/
theorem decode_encode_ReleaseUpgradePathsResponse (r : ReleaseUpgradePathsResponse) :
    decodeReleaseUpgradePathsResponse ReleaseUpgradePathsResponse.zero
      (encodeReleaseUpgradePathsResponse r) = some r := by
  obtain ⟨us⟩ := r
  by_cases h : us = []
  · subst h
    rfl
  · simp [decodeReleaseUpgradePathsResponse, encodeReleaseUpgradePathsResponse, JSON.field,
      List.lookup, decodeList, h, decodeElems_map_encode]

/-- The modelled `MakeRequest` always hands the server exactly one request:
the given method and body, the endpoint behind the API prefix, the configured
token and user agent. -/
theorem NewClient_state (apiPrefix : String) (config : ClientConfig)
    (server : HTTPRequest → HTTPResponse) (k : DataKind) (method endpoint : String)
    (expected : Nat) (body : Option JSON) (data : k.type) (received : List HTTPRequest) :
    ((NewClient apiPrefix config server).MakeRequest k method endpoint expected body data
        received).state =
      received ++ [{ method := method, path := apiPrefix ++ endpoint, token := config.Token,
                     userAgent := config.UserAgent, body := body }] := by
  simp only [NewClient]
  split
  · rfl
  · split <;> rfl

/-- The modelled `MakeRequest` returns an error carrying the extracted message
when the status code of the answer is not the expected one. -/
theorem NewClient_err_of_unexpected_status (apiPrefix : String) (config : ClientConfig)
    (server : HTTPRequest → HTTPResponse) (k : DataKind) (method endpoint : String)
    (expected : Nat) (body : Option JSON) (data : k.type) (received : List HTTPRequest)
    (h : (server { method := method, path := apiPrefix ++ endpoint, token := config.Token,
                   userAgent := config.UserAgent, body := body }).StatusCode ≠ expected) :
    ((NewClient apiPrefix config server).MakeRequest k method endpoint expected body data
        received).err =
      some { msg := errorMessage
              (server { method := method, path := apiPrefix ++ endpoint, token := config.Token,
                        userAgent := config.UserAgent, body := body }).Body } := by
  simp only [NewClient]
  rw [if_pos h]

/-- The path the server sees for an upgrade-paths endpoint, written out. -/
theorem upgradePaths_path (apiPrefix productSlug : String) (releaseID : Int) (last : String) :
    apiPrefix ++ ReleaseUpgradePathsService.url productSlug releaseID last =
      apiPrefix ++ "/products/" ++ productSlug ++ "/releases/" ++ toString releaseID ++ "/" ++
        last := by
  simp only [ReleaseUpgradePathsService.url, String.append_assoc]

/-- C7: over the modelled client, for every product slug and release ID: when
the server answers the request of `Get`, `Add` or `Remove` with a status code
outside 200..299 and a JSON body whose "message" field is `m`, the operation
returns a non-nil error whose text contains `m`. -/
theorem upgradePaths_error_contains_message (apiPrefix : String) (config : ClientConfig)
    (server : HTTPRequest → HTTPResponse) (productSlug : String)
    (releaseID previousReleaseID : Int) (w : World (List HTTPRequest)) (m : String) :
    let svc := ReleaseUpgradePathsService.mk (NewClient apiPrefix config server)
    let get : HTTPRequest :=
      { method := "GET",
        path := apiPrefix ++ "/products/" ++ productSlug ++ "/releases/" ++ toString releaseID
          ++ "/" ++ "upgrade_paths",
        token := config.Token, userAgent := config.UserAgent, body := none }
    let patch : String → HTTPRequest := fun last =>
      { method := "PATCH",
        path := apiPrefix ++ "/products/" ++ productSlug ++ "/releases/" ++ toString releaseID
          ++ "/" ++ last,
        token := config.Token, userAgent := config.UserAgent,
        body := some (.obj [("upgrade_path", .obj [("release_id", .num previousReleaseID)])]) }
    let failsWith : HTTPResponse → Prop := fun resp =>
      ¬ (200 ≤ resp.StatusCode ∧ resp.StatusCode < 300) ∧ resp.Body.messageField = some m
    (failsWith (server get) →
      ∃ e, (svc.Get productSlug releaseID w).2.2 = some e ∧ e.Contains m) ∧
    (failsWith (server (patch "add_upgrade_path")) →
      ∃ e, (svc.Add productSlug releaseID previousReleaseID w).2 = some e ∧ e.Contains m) ∧
    (failsWith (server (patch "remove_upgrade_path")) →
      ∃ e, (svc.Remove productSlug releaseID previousReleaseID w).2 = some e ∧
        e.Contains m) := by
  intro svc get patch failsWith
  have key : ∀ (k : DataKind) (method last : String) (expected : Nat) (body : Option JSON)
      (data : k.type),
      200 ≤ expected → expected < 300 →
      failsWith (server { method := method,
                          path := apiPrefix ++ "/products/" ++ productSlug ++ "/releases/" ++
                            toString releaseID ++ "/" ++ last,
                          token := config.Token, userAgent := config.UserAgent, body := body }) →
      ∃ e, ((NewClient apiPrefix config server).MakeRequest k method
              (ReleaseUpgradePathsService.url productSlug releaseID last) expected body data
              w.state).err = some e ∧ e.Contains m := by
    intro k method last expected body data h1 h2 hf
    rw [← upgradePaths_path] at hf
    obtain ⟨hs, hm⟩ := hf
    have hne : (server { method := method,
                         path := apiPrefix ++
                           ReleaseUpgradePathsService.url productSlug releaseID last,
                         token := config.Token, userAgent := config.UserAgent,
                         body := body }).StatusCode ≠ expected := by
      intro heq
      exact hs (heq ▸ ⟨h1, h2⟩)
    refine ⟨_, NewClient_err_of_unexpected_status apiPrefix config server k method _ expected
      body data w.state hne, ?_⟩
    simp only [GoError.Contains, errorMessage, hm, Option.getD_some]
    exact List.infix_refl _
  refine ⟨fun hf => ?_, fun hf => ?_, fun hf => ?_⟩
  · obtain ⟨e, he, hc⟩ := key .releaseUpgradePathsResponse "GET" "upgrade_paths" StatusOK none
      ReleaseUpgradePathsResponse.zero (by decide) (by decide) hf
    refine ⟨e, ?_, hc⟩
    simp [svc, ReleaseUpgradePathsService.Get, Client.invoke, he]
  · obtain ⟨e, he, hc⟩ := key .nil "PATCH" "add_upgrade_path" StatusNoContent
      (some (addRemoveUpgradePathBody previousReleaseID)) () (by decide) (by decide) hf
    refine ⟨e, ?_, hc⟩
    simp [svc, ReleaseUpgradePathsService.Add, Client.invoke, he]
  · obtain ⟨e, he, hc⟩ := key .nil "PATCH" "remove_upgrade_path" StatusNoContent
      (some (addRemoveUpgradePathBody previousReleaseID)) () (by decide) (by decide) hf
    refine ⟨e, ?_, hc⟩
    simp [svc, ReleaseUpgradePathsService.Remove, Client.invoke, he]

/-- The test cases "when the server responds with a non-2XX status code" of
`Get`, `Add` and `Remove`: a 418 answer with the message "foo message". -/
theorem upgradePaths_error_contains_message_witness :
    (∃ e, ((ReleaseUpgradePathsService.mk (NewClient "/api/v2" testConfig teapotServer)).Get
        "some-product" 2345 (World.init [])).2.2 = some e ∧ e.Contains "foo message") ∧
    (∃ e, ((ReleaseUpgradePathsService.mk (NewClient "/api/v2" testConfig teapotServer)).Add
        "some-product" 2345 1234 (World.init [])).2 = some e ∧ e.Contains "foo message") ∧
    (∃ e, ((ReleaseUpgradePathsService.mk (NewClient "/api/v2" testConfig teapotServer)).Remove
        "some-product" 2345 1234 (World.init [])).2 = some e ∧ e.Contains "foo message") :=
  ⟨(upgradePaths_error_contains_message "/api/v2" testConfig teapotServer "some-product" 2345
      1234 (World.init []) "foo message").1 ⟨by decide, rfl⟩,
   (upgradePaths_error_contains_message "/api/v2" testConfig teapotServer "some-product" 2345
      1234 (World.init []) "foo message").2.1 ⟨by decide, rfl⟩,
   (upgradePaths_error_contains_message "/api/v2" testConfig teapotServer "some-product" 2345
      1234 (World.init []) "foo message").2.2 ⟨by decide, rfl⟩⟩

/-- C8: over the modelled client, for every product slug and release ID, `Get`
sends exactly one request, a GET of
`<apiPrefix>/products/<slug>/releases/<releaseID>/upgrade_paths`; when the server
answers it with 200 and the encoding of the upgrade paths `r`, `Get` returns a
nil error and a list of the same length with the same `Release.ID`s in the same order. -/
theorem upgradePaths_Get_returns_the_paths (apiPrefix : String) (config : ClientConfig)
    (server : HTTPRequest → HTTPResponse) (productSlug : String) (releaseID : Int)
    (w : World (List HTTPRequest)) (r : ReleaseUpgradePathsResponse) :
    let out := (ReleaseUpgradePathsService.mk (NewClient apiPrefix config server)).Get
      productSlug releaseID w
    let get : HTTPRequest :=
      { method := "GET",
        path := apiPrefix ++ "/products/" ++ productSlug ++ "/releases/" ++ toString releaseID
          ++ "/" ++ "upgrade_paths",
        token := config.Token, userAgent := config.UserAgent, body := none }
    out.1.state = w.state ++ [get] ∧
    (server get = { StatusCode := 200, Body := encodeReleaseUpgradePathsResponse r } →
      out.2.2 = none ∧
      out.2.1.length = r.ReleaseUpgradePaths.length ∧
      out.2.1.map (fun u => u.Release.ID) =
        r.ReleaseUpgradePaths.map (fun u => u.Release.ID)) := by
  intro out get
  constructor
  · simp only [out, get, ReleaseUpgradePathsService.Get, Client.invoke]
    split <;> simp only [NewClient_state, upgradePaths_path]
  · intro h
    simp only [get, ← upgradePaths_path] at h
    have hres : (NewClient apiPrefix config server).MakeRequest .releaseUpgradePathsResponse
        "GET" (ReleaseUpgradePathsService.url productSlug releaseID "upgrade_paths") StatusOK
        none ReleaseUpgradePathsResponse.zero w.state =
        { state := w.state ++
            [{ method := "GET",
               path := apiPrefix ++ ReleaseUpgradePathsService.url productSlug releaseID
                 "upgrade_paths",
               token := config.Token, userAgent := config.UserAgent, body := none }],
          data := r, err := none } := by
      simp only [NewClient, h, decodeData, decode_encode_ReleaseUpgradePathsResponse, StatusOK]
      simp
    simp [out, ReleaseUpgradePathsService.Get, Client.invoke, hres]

/-- The test case "returns the release upgrade paths": two paths, 9876 then 8765. -/
theorem upgradePaths_Get_returns_the_paths_witness :
    ((ReleaseUpgradePathsService.mk (NewClient "/api/v2" testConfig upgradePathsServer)).Get
        "some-product" 2345 (World.init [])).2.2 = none ∧
    (((ReleaseUpgradePathsService.mk (NewClient "/api/v2" testConfig upgradePathsServer)).Get
        "some-product" 2345 (World.init [])).2.1.map (fun u => u.Release.ID)) = [9876, 8765] :=
  ⟨((upgradePaths_Get_returns_the_paths "/api/v2" testConfig upgradePathsServer "some-product"
      2345 (World.init []) testUpgradePaths).2 rfl).1,
   ((upgradePaths_Get_returns_the_paths "/api/v2" testConfig upgradePathsServer "some-product"
      2345 (World.init []) testUpgradePaths).2 rfl).2.2⟩

/-- The modelled `MakeRequest` with a nil `data` returns a nil error when the
status code of the answer is the expected one. -/
theorem NewClient_err_of_expected_status_nil (apiPrefix : String) (config : ClientConfig)
    (server : HTTPRequest → HTTPResponse) (method endpoint : String) (expected : Nat)
    (body : Option JSON) (received : List HTTPRequest)
    (h : (server { method := method, path := apiPrefix ++ endpoint, token := config.Token,
                   userAgent := config.UserAgent, body := body }).StatusCode = expected) :
    ((NewClient apiPrefix config server).MakeRequest .nil method endpoint expected body ()
        received).err = none := by
  simp only [NewClient, decodeData]
  rw [if_neg (not_not.mpr h)]

/-- C9: over the modelled client, for every product slug, release ID and
previous release ID, `Add` and `Remove` each send exactly one request, a PATCH
whose JSON body is the object with "upgrade_path" holding the object with
"release_id" holding the previous release ID, to
`<apiPrefix>/products/<slug>/releases/<releaseID>/add_upgrade_path` and
`.../remove_upgrade_path` (the requests differ in that last segment only); each
returns a nil error when the server answers its request with 204. -/
theorem upgradePaths_Add_Remove_send_PATCH (apiPrefix : String) (config : ClientConfig)
    (server : HTTPRequest → HTTPResponse) (productSlug : String)
    (releaseID previousReleaseID : Int) (w : World (List HTTPRequest)) :
    let svc := ReleaseUpgradePathsService.mk (NewClient apiPrefix config server)
    let patch : String → HTTPRequest := fun last =>
      { method := "PATCH",
        path := apiPrefix ++ "/products/" ++ productSlug ++ "/releases/" ++ toString releaseID
          ++ "/" ++ last,
        token := config.Token, userAgent := config.UserAgent,
        body := some (.obj [("upgrade_path", .obj [("release_id", .num previousReleaseID)])]) }
    (svc.Add productSlug releaseID previousReleaseID w).1.state =
      w.state ++ [patch "add_upgrade_path"] ∧
    (svc.Remove productSlug releaseID previousReleaseID w).1.state =
      w.state ++ [patch "remove_upgrade_path"] ∧
    ((server (patch "add_upgrade_path")).StatusCode = 204 →
      (svc.Add productSlug releaseID previousReleaseID w).2 = none) ∧
    ((server (patch "remove_upgrade_path")).StatusCode = 204 →
      (svc.Remove productSlug releaseID previousReleaseID w).2 = none) := by
  intro svc patch
  refine ⟨?_, ?_, fun h => ?_, fun h => ?_⟩
  · simp only [svc, patch, ReleaseUpgradePathsService.Add, Client.invoke, NewClient_state,
      upgradePaths_path, addRemoveUpgradePathBody]
  · simp only [svc, patch, ReleaseUpgradePathsService.Remove, Client.invoke, NewClient_state,
      upgradePaths_path, addRemoveUpgradePathBody]
  · simp only [patch, ← upgradePaths_path] at h
    simp only [svc, ReleaseUpgradePathsService.Add, Client.invoke]
    exact NewClient_err_of_expected_status_nil apiPrefix config server "PATCH" _ StatusNoContent
      _ w.state h
  · simp only [patch, ← upgradePaths_path] at h
    simp only [svc, ReleaseUpgradePathsService.Remove, Client.invoke]
    exact NewClient_err_of_expected_status_nil apiPrefix config server "PATCH" _ StatusNoContent
      _ w.state h

/-- The test cases "adds the release upgrade path" and "removes the release
upgrade path": release 2345, previous release 1234, a server answering 204. -/
theorem upgradePaths_Add_Remove_send_PATCH_witness :
    ((ReleaseUpgradePathsService.mk (NewClient "/api/v2" testConfig noContentServer)).Add
        "some-product" 2345 1234 (World.init [])).2 = none ∧
    ((ReleaseUpgradePathsService.mk (NewClient "/api/v2" testConfig noContentServer)).Remove
        "some-product" 2345 1234 (World.init [])).2 = none :=
  ⟨(upgradePaths_Add_Remove_send_PATCH "/api/v2" testConfig noContentServer "some-product"
      2345 1234 (World.init [])).2.2.1 rfl,
   (upgradePaths_Add_Remove_send_PATCH "/api/v2" testConfig noContentServer "some-product"
      2345 1234 (World.init [])).2.2.2 rfl⟩

end Pivnet
